import Mathlib

/-!
Verification of the offline-first interview platform
(`cristofima/AI-Tech-Interview-Preparation`).

The development shallowly embeds the parts of the TypeScript source that the
claims are about:

* the IndexedDB-backed durable store of `src/lib/offline-storage.ts`
  (`savePendingResponse`, `getPendingResponses`, `updatePendingResponseStatus`,
  `deletePendingResponse`, the sync-queue operations) — modelled as lists of
  records kept in ascending primary-key order, which is the order an
  IndexedDB object store maintains and the order `getAll` /
  `getAllFromIndex` return records in (index key, then primary key);
* the sync engine `syncPendingData` of the same file and the `triggerSync`
  guard of `hooks/useOfflineSupport.ts`, with network transmission modelled
  as an oracle `PendingResponse → Option String` (`none` = HTTP ok,
  `some e` = failure with error text `e`);
* the `POST /api/responses` handler of `app/api/responses/route.ts` with its
  Prisma `questionResponse.upsert` keyed on `(questionId, sessionId)`;
* the `InterviewRoom` component of `components/InterviewRoom.tsx`: its
  per-second timer effect, `skipQuestion`, and the `saveOffline` helper that
  generates the local record id;
* the finalized-segment accumulation of `hooks/useSpeechRecognition.ts`.
-/

namespace AIInterview

/-! ## String ordering

IndexedDB compares string keys lexicographically by code unit.  `charsLt` is
that comparison on the underlying character lists (code points; all ids in
this development are ASCII, where code unit and code point order agree). -/

def charsLt : List Char → List Char → Bool
  | [], [] => false
  | [], _ :: _ => true
  | _ :: _, [] => false
  | a :: as, b :: bs =>
    if a.toNat < b.toNat then true
    else if b.toNat < a.toNat then false
    else charsLt as bs

def strLt (a b : String) : Bool :=
  charsLt a.data b.data

theorem charsLt_irrefl : ∀ l, charsLt l l = false
  | [] => rfl
  | a :: as => by simp [charsLt, charsLt_irrefl as]

theorem charsLt_eq_of_not : ∀ l m, charsLt l m = false → charsLt m l = false → l = m
  | [], [], _, _ => rfl
  | [], _ :: _, hlm, _ => by simp [charsLt] at hlm
  | _ :: _, [], _, hml => by simp [charsLt] at hml
  | a :: as, b :: bs, hlm, hml => by
    simp only [charsLt] at hlm hml
    by_cases hab : a.toNat < b.toNat
    · rw [if_pos hab] at hlm; simp at hlm
    · by_cases hba : b.toNat < a.toNat
      · rw [if_pos hba] at hml; simp at hml
      · have hn : a.toNat = b.toNat := by omega
        have heq : a = b := Char.ext (UInt32.ext hn)
        subst heq
        rw [if_neg hab, if_neg hab] at hlm hml
        rw [charsLt_eq_of_not as bs hlm hml]

theorem charsLt_trans : ∀ l m n, charsLt l m = true → charsLt m n = true →
    charsLt l n = true
  | [], [], _, hlm, _ => by simp [charsLt] at hlm
  | [], _ :: _, [], _, hmn => by simp [charsLt] at hmn
  | [], _ :: _, _ :: _, _, _ => by simp [charsLt]
  | _ :: _, [], _, hlm, _ => by simp [charsLt] at hlm
  | _ :: _, _ :: _, [], _, hmn => by simp [charsLt] at hmn
  | a :: as, b :: bs, c :: cs, hlm, hmn => by
    simp only [charsLt] at hlm hmn ⊢
    by_cases hab : a.toNat < b.toNat
    · by_cases hbc : b.toNat < c.toNat
      · rw [if_pos (show a.toNat < c.toNat by omega)]
      · by_cases hcb : c.toNat < b.toNat
        · rw [if_neg hbc, if_pos hcb] at hmn; simp at hmn
        · rw [if_pos (show a.toNat < c.toNat by omega)]
    · by_cases hba : b.toNat < a.toNat
      · rw [if_neg hab, if_pos hba] at hlm; simp at hlm
      · have hn : a.toNat = b.toNat := by omega
        have heq : a = b := Char.ext (UInt32.ext hn)
        subst heq
        rw [if_neg hab, if_neg hab] at hlm
        by_cases hbc : a.toNat < c.toNat
        · rw [if_pos hbc]
        · by_cases hcb : c.toNat < a.toNat
          · rw [if_neg hbc, if_pos hcb] at hmn; simp at hmn
          · rw [if_neg hbc, if_neg hcb] at hmn ⊢
            exact charsLt_trans as bs cs hlm hmn

theorem string_data_inj {a b : String} (h : a.data = b.data) : a = b := by
  cases a; cases b; exact congrArg String.mk h

theorem strLt_irrefl (a : String) : strLt a a = false :=
  charsLt_irrefl a.data

theorem strLt_total {a b : String} (hab : strLt a b = false) (hba : strLt b a = false) :
    a = b :=
  string_data_inj (charsLt_eq_of_not a.data b.data hab hba)

theorem strLt_trans {a b c : String} (hab : strLt a b = true) (hbc : strLt b c = true) :
    strLt a c = true :=
  charsLt_trans a.data b.data c.data hab hbc

theorem strLt_ne {a b : String} (h : strLt a b = true) : a ≠ b := by
  intro he
  subst he
  rw [strLt_irrefl] at h
  exact Bool.false_ne_true h

/-! ## Generic IndexedDB object-store model

Both local stores (`pendingResponses`, `syncQueue`) are IndexedDB object
stores with `keyPath: 'id'`.  A store is modelled as a list of records in
strictly ascending primary-key order (`KvWF`); `kvPut` is `put`
(insert-or-replace by key), `kvGet` is `get`, `kvDelete` is `delete`. -/

section KvStore

variable {α : Type} (key : α → String)

def kvPut : List α → α → List α
  | [], r => [r]
  | x :: xs, r =>
    if key r = key x then r :: xs
    else if strLt (key r) (key x) then r :: x :: xs
    else x :: kvPut xs r

def kvGet (s : List α) (i : String) : Option α :=
  s.find? (fun x => key x == i)

def kvDelete (s : List α) (i : String) : List α :=
  s.filter (fun x => !(key x == i))

def KvWF (s : List α) : Prop :=
  s.Pairwise (fun a b => strLt (key a) (key b) = true)

def kvCount (s : List α) (i : String) : Nat :=
  (s.filter (fun x => key x == i)).length

theorem kvGet_kvPut_self : ∀ (s : List α) (r : α),
    kvGet key (kvPut key s r) (key r) = some r
  | [], r => by simp [kvGet, kvPut, List.find?]
  | x :: xs, r => by
    by_cases h : key r = key x
    · simp [kvGet, kvPut, h, List.find?]
    · by_cases h2 : strLt (key r) (key x) = true
      · simp [kvGet, kvPut, h, h2, List.find?]
      · have hx : (key x == key r) = false := beq_eq_false_iff_ne.mpr (Ne.symm h)
        simp only [kvPut, h, if_false, h2]
        simpa [kvGet, List.find?, hx] using kvGet_kvPut_self xs r

theorem kvGet_kvPut_other : ∀ (s : List α) (r : α) (i : String), i ≠ key r →
    kvGet key (kvPut key s r) i = kvGet key s i
  | [], r, i, hi => by
    simp [kvGet, kvPut, List.find?, beq_eq_false_iff_ne.mpr (Ne.symm hi)]
  | x :: xs, r, i, hi => by
    have hri : (key r == i) = false := beq_eq_false_iff_ne.mpr (Ne.symm hi)
    by_cases h : key r = key x
    · have hxi : (key x == i) = false := by rw [← h]; exact hri
      simp [kvGet, kvPut, h, List.find?, hri, hxi]
    · by_cases h2 : strLt (key r) (key x) = true
      · simp [kvGet, kvPut, h, h2, List.find?, hri]
      · simp only [kvPut, h, if_false, h2]
        by_cases hx : key x = i
        · simp [kvGet, List.find?, hx]
        · have hx' : (key x == i) = false := beq_eq_false_iff_ne.mpr hx
          simpa [kvGet, List.find?, hx'] using kvGet_kvPut_other xs r i hi

theorem kvGet_kvDelete_self (s : List α) (i : String) :
    kvGet key (kvDelete key s i) i = none := by
  rw [kvGet, List.find?_eq_none]
  intro x hx
  rw [kvDelete, List.mem_filter] at hx
  simpa using hx.2

theorem kvGet_kvDelete_other : ∀ (s : List α) (i j : String), i ≠ j →
    kvGet key (kvDelete key s j) i = kvGet key s i
  | [], _, _, _ => rfl
  | x :: xs, i, j, hij => by
    by_cases hxj : key x = j
    · have h2 : (key x == i) = false :=
        beq_eq_false_iff_ne.mpr (fun h => hij (h ▸ hxj))
      have hstep : kvDelete key (x :: xs) j = kvDelete key xs j := by
        simp [kvDelete, List.filter_cons, beq_iff_eq.mpr hxj]
      rw [hstep, kvGet_kvDelete_other xs i j hij]
      simp [kvGet, List.find?, h2]
    · have h1 : (key x == j) = false := beq_eq_false_iff_ne.mpr hxj
      have hstep : kvDelete key (x :: xs) j = x :: kvDelete key xs j := by
        simp [kvDelete, List.filter_cons, h1]
      rw [hstep]
      by_cases hxi : key x = i
      · simp [kvGet, List.find?, beq_iff_eq.mpr hxi]
      · have h2 : (key x == i) = false := beq_eq_false_iff_ne.mpr hxi
        simp only [kvGet, List.find?, h2]
        exact kvGet_kvDelete_other xs i j hij

theorem mem_kvPut : ∀ (s : List α) (r y : α), y ∈ kvPut key s r → y = r ∨ y ∈ s
  | [], r, y, hy => by simpa [kvPut] using hy
  | x :: xs, r, y, hy => by
    by_cases h : key r = key x
    · simp only [kvPut, h, if_true] at hy
      rcases List.mem_cons.mp hy with h1 | h1
      · exact Or.inl h1
      · exact Or.inr (List.mem_cons_of_mem _ h1)
    · by_cases h2 : strLt (key r) (key x) = true
      · simp only [kvPut, h, if_false, h2, if_true] at hy
        rcases List.mem_cons.mp hy with h1 | h1
        · exact Or.inl h1
        · exact Or.inr h1
      · simp only [kvPut, h, if_false, h2] at hy
        rcases List.mem_cons.mp hy with h1 | h1
        · exact Or.inr (h1 ▸ List.mem_cons_self x xs)
        · rcases mem_kvPut xs r y h1 with h3 | h3
          · exact Or.inl h3
          · exact Or.inr (List.mem_cons_of_mem _ h3)

theorem KvWF_kvPut : ∀ (s : List α) (r : α), KvWF key s → KvWF key (kvPut key s r)
  | [], r, _ => List.pairwise_singleton _ _
  | x :: xs, r, hwf => by
    rw [KvWF, List.pairwise_cons] at hwf
    obtain ⟨hx, hxs⟩ := hwf
    by_cases h : key r = key x
    · rw [kvPut, if_pos h]
      exact List.pairwise_cons.mpr ⟨fun y hy => h ▸ hx y hy, hxs⟩
    · by_cases h2 : strLt (key r) (key x) = true
      · rw [kvPut, if_neg h, if_pos h2]
        refine List.pairwise_cons.mpr ⟨?_, List.pairwise_cons.mpr ⟨hx, hxs⟩⟩
        intro y hy
        rcases List.mem_cons.mp hy with h3 | h3
        · exact h3 ▸ h2
        · exact strLt_trans h2 (hx y h3)
      · rw [kvPut, if_neg h, if_neg h2]
        refine List.pairwise_cons.mpr ⟨?_, KvWF_kvPut xs r hxs⟩
        intro y hy
        rcases mem_kvPut key xs r y hy with h3 | h3
        · subst h3
          by_cases h4 : strLt (key x) (key y) = true
          · exact h4
          · have h2' : strLt (key y) (key x) = false := by simpa using h2
            have h4' : strLt (key x) (key y) = false := by simpa using h4
            exact absurd (strLt_total h2' h4') h
        · exact hx y h3

theorem KvWF_kvDelete (s : List α) (i : String) (h : KvWF key s) :
    KvWF key (kvDelete key s i) :=
  h.sublist (List.filter_sublist s)

theorem kvKeys_distinct {s : List α} (h : KvWF key s) :
    s.Pairwise (fun a b => key a ≠ key b) :=
  h.imp fun hlt => strLt_ne hlt

theorem kvGet_of_mem : ∀ (s : List α) (r : α), KvWF key s → r ∈ s →
    kvGet key s (key r) = some r
  | [], r, _, hr => absurd hr (List.not_mem_nil r)
  | x :: xs, r, hwf, hr => by
    rw [KvWF, List.pairwise_cons] at hwf
    obtain ⟨hx, hxs⟩ := hwf
    rcases List.mem_cons.mp hr with h | h
    · subst h
      simp [kvGet, List.find?]
    · have hne : key x ≠ key r := strLt_ne (hx r h)
      have hb : (key x == key r) = false := beq_eq_false_iff_ne.mpr hne
      simp only [kvGet, List.find?, hb]
      exact kvGet_of_mem xs r hxs h

theorem kvGet_some {s : List α} {i : String} {r : α} (h : kvGet key s i = some r) :
    r ∈ s ∧ key r = i := by
  rw [kvGet] at h
  have h1 := List.mem_of_find?_eq_some h
  have h2 := List.find?_some h
  exact ⟨h1, by simpa using h2⟩

theorem kvCount_of_get_none : ∀ (s : List α) (i : String),
    kvGet key s i = none → kvCount key s i = 0
  | [], _, _ => rfl
  | x :: xs, i, h => by
    rw [kvGet, List.find?] at h
    cases hb : (key x == i) with
    | true => rw [hb] at h; exact absurd h (by simp)
    | false =>
      rw [hb] at h
      simp only [kvCount, List.filter_cons, hb, if_false]
      exact kvCount_of_get_none xs i h

theorem kvCount_of_get_some : ∀ (s : List α) (i : String) (r : α), KvWF key s →
    kvGet key s i = some r → kvCount key s i = 1
  | [], _, _, _, h => by simp [kvGet, List.find?] at h
  | x :: xs, i, r, hwf, h => by
    rw [KvWF, List.pairwise_cons] at hwf
    obtain ⟨hx, hxs⟩ := hwf
    rw [kvGet, List.find?] at h
    cases hb : (key x == i) with
    | true =>
      have hxi : key x = i := beq_iff_eq.mp hb
      have hnone : kvGet key xs i = none := by
        rw [kvGet, List.find?_eq_none]
        intro y hy
        have hne : key x ≠ key y := strLt_ne (hx y hy)
        have : key y ≠ i := fun he => hne (by rw [hxi, he])
        simp [beq_eq_false_iff_ne.mpr this]
      have := kvCount_of_get_none key xs i hnone
      simp only [kvCount, List.filter_cons, hb, if_true, List.length_cons]
      rw [kvCount] at this
      omega
    | false =>
      rw [hb] at h
      simp only [kvCount, List.filter_cons, hb, if_false]
      exact kvCount_of_get_some xs i r hxs h

end KvStore

/-! ## Record types of `lib/offline-storage.ts`

`PendingResponse` and `SyncQueueItem` follow the TypeScript interfaces;
the audio `Blob` is opaque binary data, modelled as a list of bytes. -/

inductive RespStatus
  | pending
  | syncing
  | synced
  | failed
deriving DecidableEq, Repr

structure PendingResponse where
  id : String
  questionId : String
  sessionId : String
  audioBlob : List Nat
  transcription : Option String
  durationSeconds : Nat
  recordedAt : Nat
  status : RespStatus
  retryCount : Nat
  lastError : Option String
deriving DecidableEq, Repr

inductive QueueItemType
  | response
  | evaluation
deriving DecidableEq, Repr

structure SyncQueueItem where
  id : String
  type : QueueItemType
  payload : String
  createdAt : Nat
  attempts : Nat
  lastAttempt : Option Nat
  error : Option String
deriving DecidableEq, Repr

/-! ## Pending-response operations of `lib/offline-storage.ts` -/

/-- `savePendingResponse(response)`: `db.put('pendingResponses', response)` —
insert-or-replace keyed on the record's `id` (the store's `keyPath`). -/
def savePendingResponse (s : List PendingResponse) (r : PendingResponse) :
    List PendingResponse :=
  kvPut PendingResponse.id s r

/-- `getPendingResponses()`:
`db.getAllFromIndex('pendingResponses', 'by-status', 'pending')` — all records
whose `status` is `'pending'`, in index order.  All returned records share the
index key, so the order is primary-key (`id`) ascending; on a store held in
ascending `id` order that is a plain filter. -/
def getPendingResponses (s : List PendingResponse) : List PendingResponse :=
  s.filter (fun r => r.status == RespStatus.pending)

/-- `getPendingResponsesBySession(sessionId)`:
`db.getAllFromIndex('pendingResponses', 'by-session', sessionId)`. -/
def getPendingResponsesBySession (s : List PendingResponse) (sessionId : String) :
    List PendingResponse :=
  s.filter (fun r => r.sessionId == sessionId)

/-- The field changes `updatePendingResponseStatus` applies to a found record:
set `status`, increment `retryCount` exactly when the new status is
`'failed'`, and overwrite `lastError` only when a truthy (non-empty) error
string was supplied (`if (error) { response.lastError = error; }`). -/
def markRecord (r : PendingResponse) (status : RespStatus) (error : Option String) :
    PendingResponse :=
  let r1 : PendingResponse :=
    { r with
      status := status
      retryCount := if status = RespStatus.failed then r.retryCount + 1 else r.retryCount }
  match error with
  | some e => if e = "" then r1 else { r1 with lastError := some e }
  | none => r1

/-- `updatePendingResponseStatus(id, status, error?)`: looks the record up by
id; when absent it does nothing; when present it writes the marked record
back with `put`. -/
def updatePendingResponseStatus (s : List PendingResponse) (i : String)
    (status : RespStatus) (error : Option String) : List PendingResponse :=
  match kvGet PendingResponse.id s i with
  | none => s
  | some r => kvPut PendingResponse.id s (markRecord r status error)

/-- `deletePendingResponse(id)`: `db.delete('pendingResponses', id)`. -/
def deletePendingResponse (s : List PendingResponse) (i : String) :
    List PendingResponse :=
  kvDelete PendingResponse.id s i

/-- `getPendingResponsesCount()`:
`db.countFromIndex('pendingResponses', 'by-status', 'pending')`. -/
def getPendingResponsesCount (s : List PendingResponse) : Nat :=
  (getPendingResponses s).length

/-! ## Sync-queue operations of `lib/offline-storage.ts` -/

/-- `getSyncQueueItems()`: `db.getAllFromIndex('syncQueue', 'by-created')` —
all queue items in index order: `createdAt` ascending, ties broken by the
primary key `id`.  Modelled by an insertion sort with that key. -/
def queueLe (a b : SyncQueueItem) : Bool :=
  a.createdAt < b.createdAt || (a.createdAt == b.createdAt && !(strLt b.id a.id))

def insertByCreated (x : SyncQueueItem) : List SyncQueueItem → List SyncQueueItem
  | [] => [x]
  | y :: ys => if queueLe x y then x :: y :: ys else y :: insertByCreated x ys

def getSyncQueueItems (s : List SyncQueueItem) : List SyncQueueItem :=
  s.foldr insertByCreated []

/-- `removeSyncQueueItem(id)`: `db.delete('syncQueue', id)`. -/
def removeSyncQueueItem (s : List SyncQueueItem) (i : String) : List SyncQueueItem :=
  kvDelete SyncQueueItem.id s i

/-- `updateSyncQueueItem(id, error)`: looks the item up by id; when present,
increments `attempts`, stamps `lastAttempt` with the current time and stores
the error string (unconditionally, unlike the pending-response update). -/
def updateSyncQueueItem (s : List SyncQueueItem) (i : String) (error : String)
    (now : Nat) : List SyncQueueItem :=
  match kvGet SyncQueueItem.id s i with
  | none => s
  | some it =>
    kvPut SyncQueueItem.id s
      { it with attempts := it.attempts + 1, lastAttempt := some now, error := some error }

/-! ## The sync engine `syncPendingData` of `lib/offline-storage.ts`

Network transmission (the `fetch('/api/responses/sync')` / `fetch(endpoint)`
calls) is an oracle: `none` models an `ok` HTTP response, `some e` models
either a non-ok response whose body text is `e` or a thrown error with
message `e`; both source paths feed `e` to the same status update.  The
loops additionally return the list of ids actually transmitted, as ghost
instrumentation for the single-flight and skipping claims. -/

structure SyncResults where
  synced : Nat
  failed : Nat
  errors : List String
deriving DecidableEq, Repr

/-- A drain loop's outcome: the store it leaves behind, the result counters,
and (as ghost instrumentation) the ids it actually transmitted. -/
structure LoopOut (σ : Type) where
  store : σ
  results : SyncResults
  trace : List String
deriving DecidableEq, Repr

/-- The `for (const response of pendingResponses)` loop of `syncPendingData`:
mark `syncing`, transmit, then on success delete the record and on failure
mark `failed` with the error text and move on to the next record. -/
def syncRespLoop (f : PendingResponse → Option String) :
    List PendingResponse → List PendingResponse → LoopOut (List PendingResponse)
  | [], s => ⟨s, ⟨0, 0, []⟩, []⟩
  | r :: rest, s =>
    let s1 := updatePendingResponseStatus s r.id RespStatus.syncing none
    match f r with
    | none =>
      let out := syncRespLoop f rest (deletePendingResponse s1 r.id)
      ⟨out.store, ⟨out.results.synced + 1, out.results.failed, out.results.errors⟩,
        r.id :: out.trace⟩
    | some e =>
      let out :=
        syncRespLoop f rest (updatePendingResponseStatus s1 r.id RespStatus.failed (some e))
      ⟨out.store,
        ⟨out.results.synced, out.results.failed + 1,
          ("Response " ++ r.id ++ ": " ++ e) :: out.results.errors⟩,
        r.id :: out.trace⟩

/-- The `for (const item of queueItems)` loop of `syncPendingData`: items with
`attempts >= 3` are skipped (`continue`); otherwise transmit, then on success
remove the item and on failure bump its attempt count with the error. -/
def syncQueueLoop (g : SyncQueueItem → Option String) (now : Nat) :
    List SyncQueueItem → List SyncQueueItem → LoopOut (List SyncQueueItem)
  | [], s => ⟨s, ⟨0, 0, []⟩, []⟩
  | it :: rest, s =>
    if 3 ≤ it.attempts then syncQueueLoop g now rest s
    else
      match g it with
      | none =>
        let out := syncQueueLoop g now rest (removeSyncQueueItem s it.id)
        ⟨out.store, ⟨out.results.synced + 1, out.results.failed, out.results.errors⟩,
          it.id :: out.trace⟩
      | some e =>
        let out := syncQueueLoop g now rest (updateSyncQueueItem s it.id e now)
        ⟨out.store, ⟨out.results.synced, out.results.failed + 1, out.results.errors⟩,
          it.id :: out.trace⟩

structure SyncState where
  online : Bool
  isSyncing : Bool
  pendingResponses : List PendingResponse
  syncQueue : List SyncQueueItem
deriving DecidableEq, Repr

structure SyncOutcome where
  state : SyncState
  results : SyncResults
  respTrace : List String
  queueTrace : List String
deriving DecidableEq, Repr

/-- `syncPendingData()`: guarded by `if (!isOnline() || isSyncing) return
{ synced: 0, failed: 0, errors: [] }`.  Otherwise it sets the module-level
`isSyncing` flag, snapshots `getPendingResponses()` and drains them, then
walks `getSyncQueueItems()`, and finally clears the flag. -/
def syncPendingData (f : PendingResponse → Option String)
    (g : SyncQueueItem → Option String) (now : Nat) (st : SyncState) : SyncOutcome :=
  if !st.online || st.isSyncing then
    ⟨st, ⟨0, 0, []⟩, [], []⟩
  else
    let rOut := syncRespLoop f (getPendingResponses st.pendingResponses) st.pendingResponses
    let qOut := syncQueueLoop g now (getSyncQueueItems st.syncQueue) st.syncQueue
    ⟨{ st with pendingResponses := rOut.store, syncQueue := qOut.store, isSyncing := false },
      ⟨rOut.results.synced + qOut.results.synced, rOut.results.failed + qOut.results.failed,
        rOut.results.errors ++ qOut.results.errors⟩,
      rOut.trace, qOut.trace⟩

structure TriggerResult where
  synced : Nat
  failed : Nat
  errors : List String
  timestamp : Nat
deriving DecidableEq, Repr

structure TriggerOutcome where
  state : SyncState
  result : TriggerResult
  respTrace : List String
  queueTrace : List String
deriving DecidableEq, Repr

/-- `triggerSync()` of `hooks/useOfflineSupport.ts`: guarded by its own
`syncInProgress` ref and `isOnline()`; when guarded it returns an error
result without calling `syncPendingData` at all. -/
def triggerSync (f : PendingResponse → Option String)
    (g : SyncQueueItem → Option String) (now : Nat) (syncInProgress : Bool)
    (st : SyncState) : TriggerOutcome :=
  if syncInProgress || !st.online then
    ⟨st, ⟨0, 0, ["Sync already in progress or offline"], now⟩, [], []⟩
  else
    let out := syncPendingData f g now st
    ⟨out.state, ⟨out.results.synced, out.results.failed, out.results.errors, now⟩,
      out.respTrace, out.queueTrace⟩

/-! ## The `InterviewRoom` component of `components/InterviewRoom.tsx`

Only the state the claims are about is modelled: the phase, the question
index, the per-second timer, the per-question answer map and the durable
pending-response store reached through `useOfflineSupport`. -/

inductive InterviewPhase
  | intro
  | question
  | recording
  | review
  | complete
deriving DecidableEq, Repr

structure Question where
  id : String
  questionNumber : Nat
  question : String
  category : String
  difficulty : String
  timeLimit : Nat
deriving DecidableEq, Repr

structure QState where
  answered : Bool
  transcription : Option String
  responseId : Option String
  duration : Option Nat
deriving DecidableEq, Repr

structure RoomState where
  currentIndex : Nat
  phase : InterviewPhase
  timer : Nat
  questionStates : List (String × QState)
  recorderRecording : Bool
  pendingStore : List PendingResponse
deriving DecidableEq, Repr

/-- `questionStates.set(k, v)` on the JS `Map` (only the key-value mapping is
modelled, not the insertion order). -/
def mapSet (m : List (String × QState)) (k : String) (v : QState) :
    List (String × QState) :=
  (k, v) :: m.filter (fun p => !(p.1 == k))

def mapGet (m : List (String × QState)) (k : String) : Option QState :=
  (m.find? (fun p => p.1 == k)).map (fun p => p.2)

/-- The timer effect: while `phase === 'recording'` an interval fires once per
second running `setTimer((t) => t + 1)`; in any other phase the interval is
cleared and a tick does nothing.  The effect reads neither the question's
`timeLimit` nor anything else. -/
def timerTick (s : RoomState) : RoomState :=
  if s.phase = InterviewPhase.recording then { s with timer := s.timer + 1 } else s

/-- The id `saveOffline` generates for the durable record:
`` `${data.questionId}-${Date.now()}` ``. -/
def mkOfflineId (questionId : String) (now : Nat) : String :=
  questionId ++ "-" ++ toString now

/-- `saveOffline(data, blob)` inside `stopRecording`, composed with
`saveResponseOffline` of `useOfflineSupport`, which fills in
`status: 'pending'` and `retryCount: 0` and calls `savePendingResponse`. -/
def saveOffline (store : List PendingResponse) (questionId sessionId : String)
    (transcription : String) (durationSeconds : Nat) (blob : List Nat)
    (now : Nat) : List PendingResponse :=
  savePendingResponse store
    { id := mkOfflineId questionId now
      questionId := questionId
      sessionId := sessionId
      audioBlob := blob
      transcription := some transcription
      durationSeconds := durationSeconds
      recordedAt := now
      status := RespStatus.pending
      retryCount := 0
      lastError := none }

/-- `skipQuestion`: stops the recorder and the recognizer when recording
(discarding their output — nothing is persisted), marks the current question
`{ answered: false }`, and advances to the next question or to `complete`. -/
def skipQuestion (questions : List Question) (s : RoomState) : RoomState :=
  match questions.get? s.currentIndex with
  | none => s
  | some q =>
    let s1 := if s.recorderRecording then { s with recorderRecording := false } else s
    let states := mapSet s1.questionStates q.id ⟨false, none, none, none⟩
    if s1.currentIndex = questions.length - 1 then
      { s1 with questionStates := states, phase := InterviewPhase.complete }
    else
      { s1 with
        questionStates := states
        currentIndex := s1.currentIndex + 1
        phase := InterviewPhase.question
        timer := 0 }

/-! ## Transcript accumulation of `hooks/useSpeechRecognition.ts`

The `recognizer.recognized` handler appends each finalized segment with
`transcriptRef.current += (transcriptRef.current ? ' ' : '') + text`,
and only when `text` is truthy (non-empty). -/

def appendSegment (t s : String) : String :=
  if s = "" then t else if t = "" then s else t ++ " " ++ s

def transcriptOf (segs : List String) : String :=
  segs.foldl appendSegment ""

/-! ## The server handler `POST /api/responses` of `app/api/responses/route.ts`

The Prisma store is modelled relationally; `questionResponse.upsert` keyed on
the composite unique constraint `questionId_sessionId` updates the matching
row when one exists and creates one otherwise.  Per Prisma semantics,
`x || undefined` in an update means "leave the column unchanged when `x` is
falsy", while `durationSeconds ?? null` always writes (null when absent). -/

structure SaveResponseRequest where
  questionId : String
  sessionId : String
  transcription : Option String
  durationSeconds : Option Nat
  audioUrl : Option String
deriving DecidableEq, Repr

structure ResponseRow where
  id : String
  questionId : String
  sessionId : String
  transcription : Option String
  durationSeconds : Option Nat
  audioUrl : Option String
  status : String
  startedAt : Nat
  completedAt : Option Nat
deriving DecidableEq, Repr

structure SessionRow where
  id : String
  status : String
  completedAt : Option Nat
deriving DecidableEq, Repr

structure QuestionRow where
  id : String
  sessionId : String
deriving DecidableEq, Repr

structure ServerDB where
  sessions : List SessionRow
  questions : List QuestionRow
  responses : List ResponseRow
deriving DecidableEq, Repr

/-- JavaScript `x || undefined` on an optional string: a present but empty
string is falsy and becomes `undefined`. -/
def strTruthy : Option String → Option String
  | some t => if t = "" then none else some t
  | none => none

def pairMatches (q s : String) (r : ResponseRow) : Bool :=
  r.questionId == q && r.sessionId == s

/-- The `update` branch of the upsert. -/
def applyUpdate (r : ResponseRow) (req : SaveResponseRequest) (now : Nat) : ResponseRow :=
  { r with
    transcription :=
      match strTruthy req.transcription with
      | some t => some t
      | none => r.transcription
    durationSeconds := req.durationSeconds
    audioUrl :=
      match strTruthy req.audioUrl with
      | some u => some u
      | none => r.audioUrl
    status := "completed"
    completedAt := some now }

/-- The `create` branch of the upsert; `newId` is the id Prisma generates. -/
def createRow (req : SaveResponseRequest) (now : Nat) (newId : String) : ResponseRow :=
  { id := newId
    questionId := req.questionId
    sessionId := req.sessionId
    transcription := strTruthy req.transcription
    durationSeconds := req.durationSeconds
    audioUrl := strTruthy req.audioUrl
    status := "completed"
    startedAt := now
    completedAt := some now }

/-- After the upsert the handler marks the session completed once every
question of the session has a completed response. -/
def maybeCompleteSession (db : ServerDB) (sessionId : String) (now : Nat) : ServerDB :=
  match db.sessions.find? (fun s => s.id == sessionId) with
  | none => db
  | some sess =>
    if (db.responses.filter
          (fun r => r.sessionId == sessionId && r.status == "completed")).length =
        (db.questions.filter (fun q => q.sessionId == sessionId)).length ∧
        sess.completedAt = none then
      { db with
        sessions := db.sessions.map (fun s =>
          if s.id == sessionId then { s with status := "completed", completedAt := some now }
          else s) }
    else db

/-- `POST /api/responses`: validation (falsy ids → 400; unknown session or
question → 404), then the `questionResponse.upsert` keyed on
`(questionId, sessionId)`, then the session-completion check; returns the
updated database and the HTTP status code. -/
def postResponse (db : ServerDB) (req : SaveResponseRequest) (now : Nat)
    (newId : String) : ServerDB × Nat :=
  if req.questionId = "" ∨ req.sessionId = "" then (db, 400)
  else
    match db.sessions.find? (fun s => s.id == req.sessionId) with
    | none => (db, 404)
    | some _ =>
      match db.questions.find? (fun q => q.id == req.questionId && q.sessionId == req.sessionId) with
      | none => (db, 404)
      | some _ =>
        let responses' :=
          match db.responses.find? (pairMatches req.questionId req.sessionId) with
          | some _ =>
            db.responses.map (fun r =>
              if pairMatches req.questionId req.sessionId r then applyUpdate r req now
              else r)
          | none => db.responses ++ [createRow req now newId]
        let db1 : ServerDB := { db with responses := responses' }
        (maybeCompleteSession db1 req.sessionId now, 201)

/-- Folding a batch of submissions through the handler; each submission
carries its own arrival time and generated row id. -/
def postMany (db : ServerDB) : List (SaveResponseRequest × Nat × String) → ServerDB
  | [] => db
  | (req, now, newId) :: rest => postMany (postResponse db req now newId).1 rest

/-! ## Sample data used by witnesses and counterexamples -/

def rec1 : PendingResponse :=
  { id := "q1-100"
    questionId := "q1"
    sessionId := "s1"
    audioBlob := [1, 2, 3]
    transcription := some "hello"
    durationSeconds := 30
    recordedAt := 100
    status := RespStatus.pending
    retryCount := 0
    lastError := none }

/-! ## Sample data and helper predicates used by the claims -/

/-- C3 counterexample: with a 120-second question, starting the recording
timer at 0 and letting 120 (and even 121) per-second ticks elapse leaves the
controller still in `recording` — no automatic `stopRecording` occurs at the
limit, because nothing in the timer effect consults `timeLimit`. -/
def recStart : RoomState :=
  { currentIndex := 0
    phase := InterviewPhase.recording
    timer := 0
    questionStates := []
    recorderRecording := true
    pendingStore := [] }

def q120 : Question :=
  { id := "q-120"
    questionNumber := 1
    question := "Describe a recent project."
    category := "behavioral"
    difficulty := "mid"
    timeLimit := 120 }

def c4state : SyncState :=
  { online := true
    isSyncing := true
    pendingResponses := [rec1]
    syncQueue := [] }

def qA : Question :=
  { id := "qa"
    questionNumber := 1
    question := "Explain event loops."
    category := "technical"
    difficulty := "mid"
    timeLimit := 60 }

def qB : Question :=
  { id := "qb"
    questionNumber := 2
    question := "Design a URL shortener."
    category := "system-design"
    difficulty := "senior"
    timeLimit := 300 }

def c8state : RoomState :=
  { currentIndex := 0
    phase := InterviewPhase.recording
    timer := 17
    questionStates := []
    recorderRecording := true
    pendingStore := [rec1] }

def c10rec : PendingResponse :=
  { id := "q2-200"
    questionId := "q2"
    sessionId := "s1"
    audioBlob := [4, 5]
    transcription := some "answer"
    durationSeconds := 45
    recordedAt := 200
    status := RespStatus.failed
    retryCount := 2
    lastError := some "HTTP 500" }

/-- The records the durable queue holds for one `(questionId, sessionId)`
pair. -/
def pendingForPair (s : List PendingResponse) (q sess : String) :
    List PendingResponse :=
  s.filter (fun r => r.questionId == q && r.sessionId == sess)

/-- Two `saveOffline` enqueues for the same `(questionId, sessionId)` pair at
different times (`Date.now()` = 100, then 200). -/
def c1store : List PendingResponse :=
  saveOffline (saveOffline [] "q1" "s1" "first answer" 30 [] 100)
    "q1" "s1" "second answer" 45 [] 200

def c1recA : PendingResponse :=
  { id := "q1-100"
    questionId := "q1"
    sessionId := "s1"
    audioBlob := []
    transcription := some "first"
    durationSeconds := 30
    recordedAt := 100
    status := RespStatus.pending
    retryCount := 0
    lastError := none }

def c1recB : PendingResponse :=
  { c1recA with transcription := some "second", durationSeconds := 45 }

def c1recC : PendingResponse :=
  { c1recA with id := "q1-200", transcription := some "second", recordedAt := 200 }

/-- Two enqueues whose `recordedAt` order disagrees with the id order:
question `"b"` recorded at t = 100 (id `"b-100"`), then question `"a"`
recorded at t = 200 (id `"a-200"`). -/
def c7store : List PendingResponse :=
  saveOffline (saveOffline [] "b" "s1" "answer b" 10 [] 100)
    "a" "s1" "answer a" 20 [] 200

def c7recA : PendingResponse :=
  { id := "a-200"
    questionId := "a"
    sessionId := "s1"
    audioBlob := []
    transcription := some "answer a"
    durationSeconds := 20
    recordedAt := 200
    status := RespStatus.pending
    retryCount := 0
    lastError := none }

def recOk : PendingResponse :=
  { id := "a-100"
    questionId := "qa"
    sessionId := "s1"
    audioBlob := []
    transcription := some "ok"
    durationSeconds := 5
    recordedAt := 100
    status := RespStatus.pending
    retryCount := 0
    lastError := none }

def recBad : PendingResponse :=
  { id := "b-200"
    questionId := "qb"
    sessionId := "s1"
    audioBlob := []
    transcription := some "bad"
    durationSeconds := 6
    recordedAt := 200
    status := RespStatus.pending
    retryCount := 0
    lastError := none }

def st6 : SyncState :=
  { online := true
    isSyncing := false
    pendingResponses := [recOk, recBad]
    syncQueue := [] }

def f6 : PendingResponse → Option String :=
  fun r => if r.id = "a-100" then none else some "network down"

def c2rec : PendingResponse :=
  { id := "q9-500"
    questionId := "q9"
    sessionId := "s1"
    audioBlob := []
    transcription := some "late answer"
    durationSeconds := 12
    recordedAt := 500
    status := RespStatus.failed
    retryCount := 3
    lastError := some "HTTP 500" }

def c2wit : SyncQueueItem :=
  { id := "evt-1"
    type := QueueItemType.evaluation
    payload := "payload"
    createdAt := 50
    attempts := 3
    lastAttempt := some 60
    error := some "HTTP 500" }

def st2 : SyncState :=
  { online := true
    isSyncing := false
    pendingResponses := [c2rec]
    syncQueue := [c2wit] }

/-- The response rows the server holds for one `(questionId, sessionId)`
pair. -/
def pairRows (db : ServerDB) (q s : String) : List ResponseRow :=
  db.responses.filter (pairMatches q s)

/-- The handler's validation checks: non-empty ids, existing session, and a
question that belongs to the session. -/
def validFor (db : ServerDB) (q s : String) : Prop :=
  ¬ q = "" ∧ ¬ s = "" ∧
  (db.sessions.find? (fun x => x.id == s)).isSome = true ∧
  (db.questions.find? (fun x => x.id == q && x.sessionId == s)).isSome = true

/-- What it means for a row to carry the fields a submission supplied. -/
def rowReflects (q s : String) (sub : SaveResponseRequest × Nat × String)
    (row : ResponseRow) : Prop :=
  row.questionId = q ∧ row.sessionId = s ∧ row.status = "completed" ∧
  row.durationSeconds = sub.1.durationSeconds ∧ row.completedAt = some sub.2.1 ∧
  (∀ t, strTruthy sub.1.transcription = some t → row.transcription = some t) ∧
  (∀ u, strTruthy sub.1.audioUrl = some u → row.audioUrl = some u)

def dbInit : ServerDB :=
  { sessions := [{ id := "s1", status := "in-progress", completedAt := none }]
    questions := [{ id := "q1", sessionId := "s1" }]
    responses := [] }

def reqA : SaveResponseRequest :=
  { questionId := "q1"
    sessionId := "s1"
    transcription := some "first try"
    durationSeconds := some 30
    audioUrl := none }

def reqB : SaveResponseRequest :=
  { questionId := "q1"
    sessionId := "s1"
    transcription := some "second try"
    durationSeconds := some 45
    audioUrl := some "https://store/final.webm" }

/-! ## Helper lemmas about the status update -/

theorem markRecord_id : ∀ (r : PendingResponse) (status : RespStatus)
    (error : Option String), (markRecord r status error).id = r.id
  | _, _, none => rfl
  | r, status, some e => by
    by_cases he : e = "" <;> simp [markRecord, he]

theorem markRecord_eq : ∀ (r : PendingResponse) (status : RespStatus)
    (error : Option String),
    markRecord r status error =
      { r with
        status := status
        retryCount := if status = RespStatus.failed then r.retryCount + 1 else r.retryCount
        lastError := match error with
                     | some e => if e = "" then r.lastError else some e
                     | none => r.lastError }
  | _, _, none => rfl
  | r, status, some e => by
    by_cases he : e = "" <;> simp [markRecord, he]

theorem updStatus_of_get_none (s : List PendingResponse) (i : String)
    (status : RespStatus) (error : Option String)
    (h : kvGet PendingResponse.id s i = none) :
    updatePendingResponseStatus s i status error = s := by
  rw [updatePendingResponseStatus, h]

theorem updStatus_get_self (s : List PendingResponse) (i : String)
    (status : RespStatus) (error : Option String) (r : PendingResponse)
    (h : kvGet PendingResponse.id s i = some r) :
    kvGet PendingResponse.id (updatePendingResponseStatus s i status error) i =
      some (markRecord r status error) := by
  rw [updatePendingResponseStatus, h]
  have h2 := kvGet_kvPut_self PendingResponse.id s (markRecord r status error)
  rwa [markRecord_id, (kvGet_some PendingResponse.id h).2] at h2

theorem updStatus_get_other (s : List PendingResponse) (i j : String)
    (status : RespStatus) (error : Option String) (hj : j ≠ i) :
    kvGet PendingResponse.id (updatePendingResponseStatus s i status error) j =
      kvGet PendingResponse.id s j := by
  rw [updatePendingResponseStatus]
  cases h : kvGet PendingResponse.id s i with
  | none => rfl
  | some r =>
    refine kvGet_kvPut_other PendingResponse.id s _ j ?_
    rw [markRecord_id, (kvGet_some PendingResponse.id h).2]
    exact hj

/-! ## Helper lemmas about the transcript -/

theorem appendSegment_extends (t s : String) :
    t.data <+: (appendSegment t s).data := by
  rw [appendSegment]
  by_cases hs : s = ""
  · simp [hs]
  · by_cases ht : t = ""
    · subst ht
      simp [hs]
    · rw [if_neg hs, if_neg ht]
      have hd : (t ++ " " ++ s).data = t.data ++ (" ".data ++ s.data) := by
        rw [String.data_append, String.data_append, List.append_assoc]
      rw [hd]
      exact List.prefix_append _ _

theorem transcriptOf_prefix_mono (segs more : List String) :
    (transcriptOf segs).data <+: (transcriptOf (segs ++ more)).data := by
  rw [transcriptOf, transcriptOf, List.foldl_append]
  generalize segs.foldl appendSegment "" = t
  induction more generalizing t with
  | nil => exact List.prefix_refl _
  | cons s rest ih =>
    rw [List.foldl_cons]
    exact (appendSegment_extends t s).trans (ih (appendSegment t s))

/-! ## Helper lemma about the question-state map -/

theorem mapGet_mapSet_self (m : List (String × QState)) (k : String) (v : QState) :
    mapGet (mapSet m k v) k = some v := by
  simp [mapGet, mapSet, List.find?]

/-! ## Claims -/

set_option maxRecDepth 4000

/-- C3: the claim "reaching the ceiling forces exactly one automatic
stopRecording(timeout) at t = L" is false: after `timeLimit` = 120 ticks the
phase is still `recording` (and remains so after further ticks). -/
theorem C3_counterexample :
    (timerTick^[q120.timeLimit] recStart).phase = InterviewPhase.recording ∧
    (timerTick^[q120.timeLimit] recStart).timer = 120 ∧
    (timerTick^[q120.timeLimit + 1] recStart).phase = InterviewPhase.recording := by
  decide

/-- C3 (amended): while the phase is `recording` the controller increments
the countdown once per second but never leaves `recording` on its own: after
any number `n` of ticks the phase is still `recording` and the timer shows
`n` more seconds.  No automatic `stopRecording(timeout)` exists; only an
external `stopRecording` or `skip` ends the recording. -/
theorem C3_timer_never_stops :
    ∀ (n : Nat) (s : RoomState), s.phase = InterviewPhase.recording →
      (timerTick^[n] s).phase = InterviewPhase.recording ∧
      (timerTick^[n] s).timer = s.timer + n := by
  intro n
  induction n with
  | zero =>
    intro s hs
    rw [Function.iterate_zero_apply]
    exact ⟨hs, by omega⟩
  | succ n ih =>
    intro s hs
    rw [Function.iterate_succ_apply]
    have htick : timerTick s = { s with timer := s.timer + 1 } := by
      rw [timerTick, if_pos hs]
    obtain ⟨h1, h2⟩ := ih (timerTick s) (by rw [htick]; exact hs)
    refine ⟨h1, ?_⟩
    have h3 : (timerTick s).timer = s.timer + 1 := by rw [htick]
    rw [h2, h3]
    omega

theorem C3_witness :
    (timerTick^[120] recStart).phase = InterviewPhase.recording ∧
    (timerTick^[120] recStart).timer = recStart.timer + 120 :=
  C3_timer_never_stops 120 recStart rfl

/-- C4: the single-flight guards.  A `syncPendingData` call arriving while a
drain is in flight (`isSyncing = true`) returns immediately: the state —
including both stores — is unchanged, nothing is transmitted (both traces
empty), and the results are all zero; likewise a `triggerSync` call while
`syncInProgress` is set returns an error result without reaching the sync
engine.  The dropped call is not queued anywhere. -/
theorem C4_single_flight :
    ∀ (f : PendingResponse → Option String) (g : SyncQueueItem → Option String)
      (now : Nat) (st : SyncState) (syncInProgress : Bool),
      (st.isSyncing = true →
        syncPendingData f g now st = ⟨st, ⟨0, 0, []⟩, [], []⟩) ∧
      (syncInProgress = true →
        triggerSync f g now syncInProgress st =
          ⟨st, ⟨0, 0, ["Sync already in progress or offline"], now⟩, [], []⟩) := by
  intro f g now st sp
  constructor
  · intro h
    have hc : (!st.online || st.isSyncing) = true := by rw [h, Bool.or_true]
    rw [syncPendingData, if_pos hc]
  · intro h
    have hc : (sp || !st.online) = true := by rw [h, Bool.true_or]
    rw [triggerSync, if_pos hc]

theorem C4_witness :
    syncPendingData (fun _ => none) (fun _ => none) 7 c4state =
      ⟨c4state, ⟨0, 0, []⟩, [], []⟩ ∧
    triggerSync (fun _ => none) (fun _ => none) 7 true c4state =
      ⟨c4state, ⟨0, 0, ["Sync already in progress or offline"], 7⟩, [], []⟩ :=
  ⟨(C4_single_flight (fun _ => none) (fun _ => none) 7 c4state true).1 rfl,
   (C4_single_flight (fun _ => none) (fun _ => none) 7 c4state true).2 rfl⟩

/-- C8: calling `skipQuestion` while recording persists nothing: the durable
pending store is untouched (no `PendingResponse` is created), the current
question is marked `{ answered: false }`, the in-flight capture is cancelled
(the recorder is stopped, its output discarded), and the controller advances
to the next question (or to `complete` on the last question). -/
theorem C8_skip_does_not_persist :
    ∀ (questions : List Question) (s : RoomState) (q : Question),
      s.phase = InterviewPhase.recording →
      questions.get? s.currentIndex = some q →
      (skipQuestion questions s).pendingStore = s.pendingStore ∧
      mapGet (skipQuestion questions s).questionStates q.id =
        some ⟨false, none, none, none⟩ ∧
      (skipQuestion questions s).recorderRecording = false ∧
      (skipQuestion questions s).phase =
        (if s.currentIndex = questions.length - 1 then InterviewPhase.complete
         else InterviewPhase.question) := by
  intro questions s q _ hq
  unfold skipQuestion
  rw [hq]
  by_cases hrec : s.recorderRecording = true <;>
    by_cases hlast : s.currentIndex = questions.length - 1 <;>
      simp [hrec, hlast, mapGet_mapSet_self]

theorem C8_witness :
    (skipQuestion [qA, qB] c8state).pendingStore = c8state.pendingStore ∧
    mapGet (skipQuestion [qA, qB] c8state).questionStates qA.id =
      some ⟨false, none, none, none⟩ ∧
    (skipQuestion [qA, qB] c8state).recorderRecording = false ∧
    (skipQuestion [qA, qB] c8state).phase =
      (if c8state.currentIndex = [qA, qB].length - 1 then InterviewPhase.complete
       else InterviewPhase.question) :=
  C8_skip_does_not_persist [qA, qB] c8state qA rfl rfl

/-- C9: the accumulated transcript is append-only and monotonic: the value
after any sequence of finalized segments is a prefix of the value after any
further segments, and each non-empty segment lands at the end, separated
from a non-empty prior transcript by a single space. -/
theorem C9_transcript_append_only :
    ∀ (segs more : List String),
      (transcriptOf segs).data <+: (transcriptOf (segs ++ more)).data ∧
      ∀ t s : String, s ≠ "" → t ≠ "" → appendSegment t s = t ++ " " ++ s :=
  fun segs more =>
    ⟨transcriptOf_prefix_mono segs more,
     fun _ _ hs ht => by rw [appendSegment, if_neg hs, if_neg ht]⟩

theorem C9_witness :
    (transcriptOf ["hello"]).data <+: (transcriptOf (["hello"] ++ ["world"])).data ∧
    appendSegment "hello" "world" = "hello" ++ " " ++ "world" :=
  ⟨(C9_transcript_append_only ["hello"] ["world"]).1,
   (C9_transcript_append_only ["hello"] ["world"]).2 "hello" "world"
     (by decide) (by decide)⟩

/-- C10: `updatePendingResponseStatus` on an id absent from the store is a
silent no-op (the store is returned unchanged, no error); on a present
record it sets the status, increments `retryCount` exactly when the new
status is `'failed'` (also when the record was already failed), overwrites
`lastError` only when a non-empty error string is supplied, and touches no
other record. -/
theorem C10_markStatus_semantics :
    ∀ (s : List PendingResponse) (i : String) (status : RespStatus)
      (error : Option String),
      (kvGet PendingResponse.id s i = none →
        updatePendingResponseStatus s i status error = s) ∧
      (∀ r, kvGet PendingResponse.id s i = some r →
        kvGet PendingResponse.id (updatePendingResponseStatus s i status error) i =
          some { r with
                 status := status
                 retryCount := if status = RespStatus.failed then r.retryCount + 1
                               else r.retryCount
                 lastError := match error with
                              | some e => if e = "" then r.lastError else some e
                              | none => r.lastError } ∧
        ∀ j, j ≠ i →
          kvGet PendingResponse.id (updatePendingResponseStatus s i status error) j =
            kvGet PendingResponse.id s j) := by
  intro s i status error
  refine ⟨fun h => updStatus_of_get_none s i status error h, ?_⟩
  intro r hr
  constructor
  · rw [← markRecord_eq]
    exact updStatus_get_self s i status error r hr
  · intro j hj
    exact updStatus_get_other s i j status error hj

theorem C10_witness :
    updatePendingResponseStatus [c10rec] "missing" RespStatus.failed (some "boom")
      = [c10rec] ∧
    kvGet PendingResponse.id
        (updatePendingResponseStatus [c10rec] "q2-200" RespStatus.failed (some ""))
        "q2-200" =
      some { c10rec with
             status := RespStatus.failed
             retryCount := 3
             lastError := some "HTTP 500" } :=
  ⟨(C10_markStatus_semantics [c10rec] "missing" RespStatus.failed (some "boom")).1
     (by decide),
   by
     have h := ((C10_markStatus_semantics [c10rec] "q2-200" RespStatus.failed
       (some "")).2 c10rec (by decide)).1
     simpa using h⟩

/-- C1 counterexample: after the second enqueue for the pair `("q1", "s1")`
the durable queue holds two records for that pair, not one — the generated
ids `"q1-100"` and `"q1-200"` differ, so the second `put` does not replace
the first. -/
theorem C1_counterexample :
    (pendingForPair c1store "q1" "s1").length = 2 ∧
    ¬ (pendingForPair c1store "q1" "s1").length = 1 := by
  decide

/-- C1 (amended): `savePendingResponse` is insert-or-replace keyed on the
record `id` (the store's `keyPath`), not on `(questionId, sessionId)`.  For
two enqueues whose records share the pair: when the ids coincide (same
`questionId` and same `Date.now()` millisecond), exactly one record with
that id remains and it is the second one; when the ids differ, both records
stay in the queue. -/
theorem C1_enqueue_keyed_on_id :
    ∀ (s : List PendingResponse) (r1 r2 : PendingResponse),
      KvWF PendingResponse.id s →
      r1.questionId = r2.questionId → r1.sessionId = r2.sessionId →
      (r1.id = r2.id →
        kvGet PendingResponse.id (savePendingResponse (savePendingResponse s r1) r2)
            r2.id = some r2 ∧
        kvCount PendingResponse.id (savePendingResponse (savePendingResponse s r1) r2)
            r2.id = 1) ∧
      (r1.id ≠ r2.id →
        kvGet PendingResponse.id (savePendingResponse (savePendingResponse s r1) r2)
            r1.id = some r1 ∧
        kvGet PendingResponse.id (savePendingResponse (savePendingResponse s r1) r2)
            r2.id = some r2) := by
  intro s r1 r2 hwf _ _
  have hwf1 : KvWF PendingResponse.id (savePendingResponse s r1) :=
    KvWF_kvPut PendingResponse.id s r1 hwf
  have hget2 : kvGet PendingResponse.id
      (savePendingResponse (savePendingResponse s r1) r2) r2.id = some r2 :=
    kvGet_kvPut_self PendingResponse.id (savePendingResponse s r1) r2
  constructor
  · intro _
    refine ⟨hget2, ?_⟩
    exact kvCount_of_get_some PendingResponse.id _ r2.id r2
      (KvWF_kvPut PendingResponse.id (savePendingResponse s r1) r2 hwf1) hget2
  · intro hne
    refine ⟨?_, hget2⟩
    have h1 : kvGet PendingResponse.id
        (kvPut PendingResponse.id (savePendingResponse s r1) r2) r1.id =
          kvGet PendingResponse.id (savePendingResponse s r1) r1.id :=
      kvGet_kvPut_other PendingResponse.id (savePendingResponse s r1) r2 r1.id hne
    exact h1.trans (kvGet_kvPut_self PendingResponse.id s r1)

theorem C1_witness :
    (kvGet PendingResponse.id (savePendingResponse (savePendingResponse [] c1recA) c1recB)
        c1recB.id = some c1recB ∧
      kvCount PendingResponse.id (savePendingResponse (savePendingResponse [] c1recA) c1recB)
        c1recB.id = 1) ∧
    (kvGet PendingResponse.id (savePendingResponse (savePendingResponse [] c1recA) c1recC)
        c1recA.id = some c1recA ∧
      kvGet PendingResponse.id (savePendingResponse (savePendingResponse [] c1recA) c1recC)
        c1recC.id = some c1recC) :=
  ⟨(C1_enqueue_keyed_on_id [] c1recA c1recB (by unfold KvWF; decide) rfl rfl).1 rfl,
   (C1_enqueue_keyed_on_id [] c1recA c1recC (by unfold KvWF; decide) rfl rfl).2 (by decide)⟩

/-- C7 counterexample: `getPendingResponses` returns the pending records in
primary-key (id) order, so here the `recordedAt` values come back as
`[200, 100]` — not ascending.  The claimed "ordered by recordedAt ascending"
is false. -/
theorem C7_counterexample :
    (getPendingResponses c7store).map PendingResponse.recordedAt = [200, 100] ∧
    ¬ List.Pairwise (fun a b : Nat => a ≤ b)
        ((getPendingResponses c7store).map PendingResponse.recordedAt) := by
  decide

/-- C7 (amended): `getPendingResponses` returns exactly the records whose
status is `'pending'`, in ascending primary-key (`id`) order — the IndexedDB
`by-status` index order — which in general differs from `recordedAt`
ascending, because the id is `questionId-timestamp` and the question id
dominates the comparison. -/
theorem C7_listPending_pending_in_id_order :
    ∀ (s : List PendingResponse), KvWF PendingResponse.id s →
      (∀ r, r ∈ getPendingResponses s ↔ r ∈ s ∧ r.status = RespStatus.pending) ∧
      List.Pairwise (fun a b : PendingResponse => strLt a.id b.id = true)
        (getPendingResponses s) := by
  intro s hwf
  constructor
  · intro r
    simp [getPendingResponses, List.mem_filter]
  · have hp : List.Pairwise (fun a b : PendingResponse => strLt a.id b.id = true) s := hwf
    exact hp.sublist (List.filter_sublist s)

theorem C7_witness :
    (c7recA ∈ getPendingResponses c7store ↔
      c7recA ∈ c7store ∧ c7recA.status = RespStatus.pending) ∧
    List.Pairwise (fun a b : PendingResponse => strLt a.id b.id = true)
      (getPendingResponses c7store) :=
  ⟨(C7_listPending_pending_in_id_order c7store (by unfold KvWF; decide)).1 c7recA,
   (C7_listPending_pending_in_id_order c7store (by unfold KvWF; decide)).2⟩

/-! ## Drain-loop lemmas -/

theorem mem_id_unique {α : Type} (key : α → String) :
    ∀ {s : List α}, s.Pairwise (fun a b => key a ≠ key b) →
      ∀ {a b : α}, a ∈ s → b ∈ s → key a = key b → a = b
  | [], _, a, _, ha, _, _ => absurd ha (List.not_mem_nil a)
  | x :: xs, h, a, b, ha, hb, hab => by
    rw [List.pairwise_cons] at h
    obtain ⟨hx, hxs⟩ := h
    rcases List.mem_cons.mp ha with rfl | ha' <;> rcases List.mem_cons.mp hb with rfl | hb'
    · rfl
    · exact absurd hab (hx b hb')
    · exact absurd hab.symm (hx a ha')
    · exact mem_id_unique key hxs ha' hb' hab

theorem syncRespLoop_cons_store_ok (f : PendingResponse → Option String)
    (r : PendingResponse) (rest s : List PendingResponse) (hf : f r = none) :
    (syncRespLoop f (r :: rest) s).store =
      (syncRespLoop f rest (deletePendingResponse
        (updatePendingResponseStatus s r.id RespStatus.syncing none) r.id)).store := by
  simp only [syncRespLoop, hf]

theorem syncRespLoop_cons_trace_ok (f : PendingResponse → Option String)
    (r : PendingResponse) (rest s : List PendingResponse) (hf : f r = none) :
    (syncRespLoop f (r :: rest) s).trace =
      r.id :: (syncRespLoop f rest (deletePendingResponse
        (updatePendingResponseStatus s r.id RespStatus.syncing none) r.id)).trace := by
  simp only [syncRespLoop, hf]

theorem syncRespLoop_cons_store_fail (f : PendingResponse → Option String)
    (r : PendingResponse) (rest s : List PendingResponse) (e : String)
    (hf : f r = some e) :
    (syncRespLoop f (r :: rest) s).store =
      (syncRespLoop f rest (updatePendingResponseStatus
        (updatePendingResponseStatus s r.id RespStatus.syncing none)
        r.id RespStatus.failed (some e))).store := by
  simp only [syncRespLoop, hf]

theorem syncRespLoop_cons_trace_fail (f : PendingResponse → Option String)
    (r : PendingResponse) (rest s : List PendingResponse) (e : String)
    (hf : f r = some e) :
    (syncRespLoop f (r :: rest) s).trace =
      r.id :: (syncRespLoop f rest (updatePendingResponseStatus
        (updatePendingResponseStatus s r.id RespStatus.syncing none)
        r.id RespStatus.failed (some e))).trace := by
  simp only [syncRespLoop, hf]

theorem syncRespLoop_untouched (f : PendingResponse → Option String) :
    ∀ (P s : List PendingResponse) (i : String), (∀ p ∈ P, p.id ≠ i) →
      kvGet PendingResponse.id (syncRespLoop f P s).store i =
        kvGet PendingResponse.id s i ∧
      i ∉ (syncRespLoop f P s).trace
  | [], s, i, _ => ⟨rfl, by simp [syncRespLoop]⟩
  | r :: rest, s, i, hni => by
    have hri : r.id ≠ i := hni r (List.mem_cons_self r rest)
    have hrest : ∀ p ∈ rest, p.id ≠ i := fun p hp => hni p (List.mem_cons_of_mem r hp)
    cases hf : f r with
    | none =>
      rw [syncRespLoop_cons_store_ok f r rest s hf, syncRespLoop_cons_trace_ok f r rest s hf]
      obtain ⟨hg, ht⟩ := syncRespLoop_untouched f rest _ i hrest
      refine ⟨?_, ?_⟩
      · rw [hg]
        simp only [deletePendingResponse]
        rw [kvGet_kvDelete_other PendingResponse.id _ i r.id (Ne.symm hri),
          updStatus_get_other s r.id i RespStatus.syncing none (Ne.symm hri)]
      · rw [List.mem_cons]
        rintro (h | h)
        · exact hri h.symm
        · exact ht h
    | some e =>
      rw [syncRespLoop_cons_store_fail f r rest s e hf,
        syncRespLoop_cons_trace_fail f r rest s e hf]
      obtain ⟨hg, ht⟩ := syncRespLoop_untouched f rest _ i hrest
      refine ⟨?_, ?_⟩
      · rw [hg, updStatus_get_other _ r.id i RespStatus.failed (some e) (Ne.symm hri),
          updStatus_get_other s r.id i RespStatus.syncing none (Ne.symm hri)]
      · rw [List.mem_cons]
        rintro (h | h)
        · exact hri h.symm
        · exact ht h

theorem syncRespLoop_trace_eq (f : PendingResponse → Option String) :
    ∀ (P s : List PendingResponse),
      (syncRespLoop f P s).trace = P.map PendingResponse.id
  | [], _ => rfl
  | r :: rest, s => by
    cases hf : f r with
    | none =>
      rw [syncRespLoop_cons_trace_ok f r rest s hf, List.map_cons,
        syncRespLoop_trace_eq f rest _]
    | some e =>
      rw [syncRespLoop_cons_trace_fail f r rest s e hf, List.map_cons,
        syncRespLoop_trace_eq f rest _]

theorem syncRespLoop_processes (f : PendingResponse → Option String) :
    ∀ (P s : List PendingResponse) (r : PendingResponse),
      P.Pairwise (fun a b => a.id ≠ b.id) → r ∈ P →
      kvGet PendingResponse.id s r.id = some r →
      (f r = none →
        kvGet PendingResponse.id (syncRespLoop f P s).store r.id = none) ∧
      (∀ e, f r = some e →
        kvGet PendingResponse.id (syncRespLoop f P s).store r.id =
          some (markRecord (markRecord r RespStatus.syncing none)
            RespStatus.failed (some e)))
  | [], _, r, _, hr, _ => absurd hr (List.not_mem_nil r)
  | x :: rest, s, r, hpw, hr, hget => by
    rw [List.pairwise_cons] at hpw
    obtain ⟨hx, hrest⟩ := hpw
    rcases List.mem_cons.mp hr with rfl | hr'
    · have hne : ∀ p ∈ rest, p.id ≠ r.id := fun p hp => (hx p hp).symm
      constructor
      · intro hf
        rw [syncRespLoop_cons_store_ok f r rest s hf,
          (syncRespLoop_untouched f rest _ r.id hne).1]
        exact kvGet_kvDelete_self PendingResponse.id _ r.id
      · intro e hf
        rw [syncRespLoop_cons_store_fail f r rest s e hf,
          (syncRespLoop_untouched f rest _ r.id hne).1]
        refine updStatus_get_self _ r.id RespStatus.failed (some e) _ ?_
        exact updStatus_get_self s r.id RespStatus.syncing none r hget
    · have hxr : r.id ≠ x.id := fun h => (hx r hr') h.symm
      cases hfx : f x with
      | none =>
        have hget2 : kvGet PendingResponse.id (deletePendingResponse
            (updatePendingResponseStatus s x.id RespStatus.syncing none) x.id) r.id =
              some r := by
          simp only [deletePendingResponse]
          rw [kvGet_kvDelete_other PendingResponse.id _ r.id x.id hxr,
            updStatus_get_other s x.id r.id RespStatus.syncing none hxr]
          exact hget
        have hres := syncRespLoop_processes f rest _ r hrest hr' hget2
        constructor
        · intro hf
          rw [syncRespLoop_cons_store_ok f x rest s hfx]
          exact hres.1 hf
        · intro e hf
          rw [syncRespLoop_cons_store_ok f x rest s hfx]
          exact hres.2 e hf
      | some ex =>
        have hget2 : kvGet PendingResponse.id (updatePendingResponseStatus
            (updatePendingResponseStatus s x.id RespStatus.syncing none)
            x.id RespStatus.failed (some ex)) r.id = some r := by
          rw [updStatus_get_other _ x.id r.id RespStatus.failed (some ex) hxr,
            updStatus_get_other s x.id r.id RespStatus.syncing none hxr]
          exact hget
        have hres := syncRespLoop_processes f rest _ r hrest hr' hget2
        constructor
        · intro hf
          rw [syncRespLoop_cons_store_fail f x rest s ex hfx]
          exact hres.1 hf
        · intro e hf
          rw [syncRespLoop_cons_store_fail f x rest s ex hfx]
          exact hres.2 e hf

theorem updateSyncQueueItem_get_other (s : List SyncQueueItem) (i j e : String)
    (now : Nat) (hj : j ≠ i) :
    kvGet SyncQueueItem.id (updateSyncQueueItem s i e now) j =
      kvGet SyncQueueItem.id s j := by
  rw [updateSyncQueueItem]
  cases h : kvGet SyncQueueItem.id s i with
  | none => rfl
  | some it =>
    have hid : it.id = i := (kvGet_some SyncQueueItem.id h).2
    exact kvGet_kvPut_other SyncQueueItem.id s _ j (fun hc => hj (hid ▸ hc))

theorem syncQueueLoop_cons_skip (g : SyncQueueItem → Option String) (now : Nat)
    (it : SyncQueueItem) (rest s : List SyncQueueItem) (h : 3 ≤ it.attempts) :
    syncQueueLoop g now (it :: rest) s = syncQueueLoop g now rest s := by
  simp only [syncQueueLoop, if_pos h]

theorem syncQueueLoop_cons_store_ok (g : SyncQueueItem → Option String) (now : Nat)
    (it : SyncQueueItem) (rest s : List SyncQueueItem) (hn : ¬ 3 ≤ it.attempts)
    (hg : g it = none) :
    (syncQueueLoop g now (it :: rest) s).store =
      (syncQueueLoop g now rest (removeSyncQueueItem s it.id)).store := by
  simp only [syncQueueLoop, if_neg hn, hg]

theorem syncQueueLoop_cons_trace_ok (g : SyncQueueItem → Option String) (now : Nat)
    (it : SyncQueueItem) (rest s : List SyncQueueItem) (hn : ¬ 3 ≤ it.attempts)
    (hg : g it = none) :
    (syncQueueLoop g now (it :: rest) s).trace =
      it.id :: (syncQueueLoop g now rest (removeSyncQueueItem s it.id)).trace := by
  simp only [syncQueueLoop, if_neg hn, hg]

theorem syncQueueLoop_cons_store_fail (g : SyncQueueItem → Option String) (now : Nat)
    (it : SyncQueueItem) (rest s : List SyncQueueItem) (e : String)
    (hn : ¬ 3 ≤ it.attempts) (hg : g it = some e) :
    (syncQueueLoop g now (it :: rest) s).store =
      (syncQueueLoop g now rest (updateSyncQueueItem s it.id e now)).store := by
  simp only [syncQueueLoop, if_neg hn, hg]

theorem syncQueueLoop_cons_trace_fail (g : SyncQueueItem → Option String) (now : Nat)
    (it : SyncQueueItem) (rest s : List SyncQueueItem) (e : String)
    (hn : ¬ 3 ≤ it.attempts) (hg : g it = some e) :
    (syncQueueLoop g now (it :: rest) s).trace =
      it.id :: (syncQueueLoop g now rest (updateSyncQueueItem s it.id e now)).trace := by
  simp only [syncQueueLoop, if_neg hn, hg]

theorem syncQueueLoop_untouched (g : SyncQueueItem → Option String) (now : Nat) :
    ∀ (L s : List SyncQueueItem) (i : String),
      (∀ x ∈ L, x.attempts < 3 → x.id ≠ i) →
      kvGet SyncQueueItem.id (syncQueueLoop g now L s).store i =
        kvGet SyncQueueItem.id s i ∧
      i ∉ (syncQueueLoop g now L s).trace
  | [], s, i, _ => ⟨rfl, by simp [syncQueueLoop]⟩
  | it :: rest, s, i, hni => by
    have hrest : ∀ x ∈ rest, x.attempts < 3 → x.id ≠ i :=
      fun x hx => hni x (List.mem_cons_of_mem it hx)
    by_cases hskip : 3 ≤ it.attempts
    · rw [syncQueueLoop_cons_skip g now it rest s hskip]
      exact syncQueueLoop_untouched g now rest s i hrest
    · have hit : it.id ≠ i := hni it (List.mem_cons_self it rest) (by omega)
      cases hg : g it with
      | none =>
        rw [syncQueueLoop_cons_store_ok g now it rest s hskip hg,
          syncQueueLoop_cons_trace_ok g now it rest s hskip hg]
        obtain ⟨h1, h2⟩ := syncQueueLoop_untouched g now rest _ i hrest
        refine ⟨?_, ?_⟩
        · rw [h1]
          simp only [removeSyncQueueItem]
          exact kvGet_kvDelete_other SyncQueueItem.id s i it.id (Ne.symm hit)
        · rw [List.mem_cons]
          rintro (h | h)
          · exact hit h.symm
          · exact h2 h
      | some e =>
        rw [syncQueueLoop_cons_store_fail g now it rest s e hskip hg,
          syncQueueLoop_cons_trace_fail g now it rest s e hskip hg]
        obtain ⟨h1, h2⟩ := syncQueueLoop_untouched g now rest _ i hrest
        refine ⟨?_, ?_⟩
        · rw [h1]
          exact updateSyncQueueItem_get_other s it.id i e now (Ne.symm hit)
        · rw [List.mem_cons]
          rintro (h | h)
          · exact hit h.symm
          · exact h2 h

theorem mem_insertByCreated (x : SyncQueueItem) :
    ∀ (l : List SyncQueueItem) (y : SyncQueueItem),
      y ∈ insertByCreated x l ↔ y = x ∨ y ∈ l
  | [], y => by simp [insertByCreated]
  | z :: zs, y => by
    by_cases hq : queueLe x z = true
    · simp [insertByCreated, hq]
    · simp only [insertByCreated, if_neg hq, List.mem_cons, mem_insertByCreated x zs y]
      tauto

theorem mem_getSyncQueueItems :
    ∀ (s : List SyncQueueItem) (x : SyncQueueItem),
      x ∈ getSyncQueueItems s ↔ x ∈ s
  | [], x => by simp [getSyncQueueItems]
  | y :: ys, x => by
    have hstep : getSyncQueueItems (y :: ys) = insertByCreated y (getSyncQueueItems ys) :=
      rfl
    rw [hstep, mem_insertByCreated y (getSyncQueueItems ys) x, List.mem_cons,
      mem_getSyncQueueItems ys x]

/-- The else branch of `syncPendingData`, as an equation. -/
theorem syncPendingData_run (f : PendingResponse → Option String)
    (g : SyncQueueItem → Option String) (now : Nat) (st : SyncState)
    (hon : st.online = true) (hsync : st.isSyncing = false) :
    syncPendingData f g now st =
      ⟨{ st with
         pendingResponses :=
           (syncRespLoop f (getPendingResponses st.pendingResponses)
             st.pendingResponses).store
         syncQueue :=
           (syncQueueLoop g now (getSyncQueueItems st.syncQueue) st.syncQueue).store
         isSyncing := false },
        ⟨(syncRespLoop f (getPendingResponses st.pendingResponses)
            st.pendingResponses).results.synced +
          (syncQueueLoop g now (getSyncQueueItems st.syncQueue)
            st.syncQueue).results.synced,
         (syncRespLoop f (getPendingResponses st.pendingResponses)
            st.pendingResponses).results.failed +
          (syncQueueLoop g now (getSyncQueueItems st.syncQueue)
            st.syncQueue).results.failed,
         (syncRespLoop f (getPendingResponses st.pendingResponses)
            st.pendingResponses).results.errors ++
          (syncQueueLoop g now (getSyncQueueItems st.syncQueue)
            st.syncQueue).results.errors⟩,
        (syncRespLoop f (getPendingResponses st.pendingResponses)
          st.pendingResponses).trace,
        (syncQueueLoop g now (getSyncQueueItems st.syncQueue) st.syncQueue).trace⟩ := by
  have hc : ¬ ((!st.online || st.isSyncing) = true) := by simp [hon, hsync]
  rw [syncPendingData, if_neg hc]

theorem markRecord_syncing_then_failed (r : PendingResponse) (e : String)
    (he : ¬ e = "") :
    markRecord (markRecord r RespStatus.syncing none) RespStatus.failed (some e) =
      { r with
        status := RespStatus.failed
        retryCount := r.retryCount + 1
        lastError := some e } := by
  simp [markRecord, he]

/-- C6: one drain pass attempts every pending record — a transmit failure on
one record does not stop the loop (the transmit trace covers the whole
pending list in order) — and per record: a successful transmit removes it
from the local store, a failed transmit leaves it stored with status
`'failed'`, `retryCount` incremented once, and the error text recorded in
`lastError`. -/
theorem C6_drain_marks_and_continues :
    ∀ (f : PendingResponse → Option String) (g : SyncQueueItem → Option String)
      (now : Nat) (st : SyncState),
      st.online = true → st.isSyncing = false →
      KvWF PendingResponse.id st.pendingResponses →
      (syncPendingData f g now st).respTrace =
        (getPendingResponses st.pendingResponses).map PendingResponse.id ∧
      ∀ r ∈ getPendingResponses st.pendingResponses,
        (f r = none →
          kvGet PendingResponse.id
            (syncPendingData f g now st).state.pendingResponses r.id = none) ∧
        (∀ e, f r = some e → ¬ e = "" →
          kvGet PendingResponse.id
            (syncPendingData f g now st).state.pendingResponses r.id =
            some { r with
                   status := RespStatus.failed
                   retryCount := r.retryCount + 1
                   lastError := some e }) := by
  intro f g now st hon hsync hwf
  rw [syncPendingData_run f g now st hon hsync]
  constructor
  · exact syncRespLoop_trace_eq f _ _
  · intro r hr
    have hdist : (getPendingResponses st.pendingResponses).Pairwise
        (fun a b => a.id ≠ b.id) :=
      (kvKeys_distinct PendingResponse.id hwf).sublist (List.filter_sublist _)
    have hmem : r ∈ st.pendingResponses := (List.mem_filter.mp hr).1
    have hget : kvGet PendingResponse.id st.pendingResponses r.id = some r :=
      kvGet_of_mem PendingResponse.id st.pendingResponses r hwf hmem
    have hproc := syncRespLoop_processes f (getPendingResponses st.pendingResponses)
      st.pendingResponses r hdist hr hget
    constructor
    · intro hf
      exact hproc.1 hf
    · intro e hf he
      have h2 := hproc.2 e hf
      rw [markRecord_syncing_then_failed r e he] at h2
      exact h2

theorem C6_witness :
    (syncPendingData f6 (fun _ => none) 9 st6).respTrace =
      (getPendingResponses st6.pendingResponses).map PendingResponse.id ∧
    kvGet PendingResponse.id
      (syncPendingData f6 (fun _ => none) 9 st6).state.pendingResponses recOk.id = none ∧
    kvGet PendingResponse.id
      (syncPendingData f6 (fun _ => none) 9 st6).state.pendingResponses recBad.id =
      some { recBad with
             status := RespStatus.failed
             retryCount := recBad.retryCount + 1
             lastError := some "network down" } :=
  ⟨(C6_drain_marks_and_continues f6 (fun _ => none) 9 st6 rfl rfl
      (by unfold KvWF; decide)).1,
   ((C6_drain_marks_and_continues f6 (fun _ => none) 9 st6 rfl rfl
      (by unfold KvWF; decide)).2 recOk (by decide)).1 (by decide),
   ((C6_drain_marks_and_continues f6 (fun _ => none) 9 st6 rfl rfl
      (by unfold KvWF; decide)).2 recBad (by decide)).2 "network down"
     (by decide) (by decide)⟩

/-- C2 counterexample: a record with status `'failed'` and `retryCount = 3`
is NOT returned by `getPendingResponses`, which filters on status
`'pending'` — contradicting "still returned by listPending with status
'failed' and retryCount = 3". -/
theorem C2_counterexample :
    c2rec.status = RespStatus.failed ∧ c2rec.retryCount = 3 ∧
    c2rec ∉ getPendingResponses [c2rec] := by
  decide

/-- C2 (amended): a PendingResponse is excluded from automatic drains as
soon as its status is `'failed'` — which happens after a single failed
attempt, so retryCount never reaches 3 through drains — because
`getPendingResponses` returns only status-`'pending'` records; the record is
therefore not in `listPending`, but it does remain untouched in the local
store (the drain neither transmits nor modifies it).  The 3-attempt ceiling
applies to the generic SyncQueueItems instead: an item with `attempts >= 3`
is skipped by the drain yet remains stored. -/
theorem C2_failed_excluded_and_retained :
    ∀ (f : PendingResponse → Option String) (g : SyncQueueItem → Option String)
      (now : Nat) (st : SyncState) (r : PendingResponse) (it : SyncQueueItem),
      KvWF PendingResponse.id st.pendingResponses →
      KvWF SyncQueueItem.id st.syncQueue →
      r ∈ st.pendingResponses → r.status = RespStatus.failed →
      it ∈ st.syncQueue → 3 ≤ it.attempts →
      r ∉ getPendingResponses st.pendingResponses ∧
      kvGet PendingResponse.id
        (syncPendingData f g now st).state.pendingResponses r.id = some r ∧
      r.id ∉ (syncPendingData f g now st).respTrace ∧
      kvGet SyncQueueItem.id
        (syncPendingData f g now st).state.syncQueue it.id = some it ∧
      it.id ∉ (syncPendingData f g now st).queueTrace := by
  intro f g now st r it hwfP hwfQ hr hst hit hat
  have hgetR : kvGet PendingResponse.id st.pendingResponses r.id = some r :=
    kvGet_of_mem PendingResponse.id st.pendingResponses r hwfP hr
  have hgetQ : kvGet SyncQueueItem.id st.syncQueue it.id = some it :=
    kvGet_of_mem SyncQueueItem.id st.syncQueue it hwfQ hit
  have hnp : r ∉ getPendingResponses st.pendingResponses := by
    intro hmem
    have h := (List.mem_filter.mp hmem).2
    rw [hst] at h
    simp at h
  refine ⟨hnp, ?_⟩
  by_cases hguard : (!st.online || st.isSyncing) = true
  · have heq : syncPendingData f g now st = ⟨st, ⟨0, 0, []⟩, [], []⟩ := by
      rw [syncPendingData, if_pos hguard]
    rw [heq]
    exact ⟨hgetR, by simp, hgetQ, by simp⟩
  · have hg' : (!st.online || st.isSyncing) = false := Bool.eq_false_iff.mpr hguard
    obtain ⟨h1, h2⟩ := Bool.or_eq_false_iff.mp hg'
    have hon : st.online = true := by simpa using h1
    rw [syncPendingData_run f g now st hon h2]
    have hne : ∀ p ∈ getPendingResponses st.pendingResponses, p.id ≠ r.id := by
      intro p hp hpid
      have hp' : p ∈ st.pendingResponses := (List.mem_filter.mp hp).1
      have hpr : p = r :=
        mem_id_unique PendingResponse.id (kvKeys_distinct PendingResponse.id hwfP)
          hp' hr hpid
      have hps := (List.mem_filter.mp hp).2
      rw [hpr, hst] at hps
      simp at hps
    have hneQ : ∀ x ∈ getSyncQueueItems st.syncQueue, x.attempts < 3 → x.id ≠ it.id := by
      intro x hx hxa hxid
      have hx' : x ∈ st.syncQueue := (mem_getSyncQueueItems st.syncQueue x).mp hx
      have hxit : x = it :=
        mem_id_unique SyncQueueItem.id (kvKeys_distinct SyncQueueItem.id hwfQ)
          hx' hit hxid
      rw [hxit] at hxa
      omega
    obtain ⟨hrg, hrt⟩ := syncRespLoop_untouched f
      (getPendingResponses st.pendingResponses) st.pendingResponses r.id hne
    obtain ⟨hqg, hqt⟩ := syncQueueLoop_untouched g now
      (getSyncQueueItems st.syncQueue) st.syncQueue it.id hneQ
    exact ⟨hrg.trans hgetR, hrt, hqg.trans hgetQ, hqt⟩

/-! ## Server-side upsert lemmas -/

theorem pairMatches_applyUpdate (q s : String) (r : ResponseRow)
    (req : SaveResponseRequest) (now : Nat) :
    pairMatches q s (applyUpdate r req now) = pairMatches q s r := by
  simp [pairMatches, applyUpdate]

theorem rowReflects_createRow (q s : String) (req : SaveResponseRequest)
    (now : Nat) (newId : String) (hq : req.questionId = q) (hs : req.sessionId = s) :
    rowReflects q s (req, now, newId) (createRow req now newId) :=
  ⟨hq, hs, rfl, rfl, rfl, fun _ ht => ht, fun _ hu => hu⟩

theorem rowReflects_applyUpdate (q s : String) (row : ResponseRow)
    (req : SaveResponseRequest) (now : Nat) (newId : String)
    (hq : row.questionId = q) (hs : row.sessionId = s) :
    rowReflects q s (req, now, newId) (applyUpdate row req now) := by
  refine ⟨hq, hs, rfl, rfl, rfl, ?_, ?_⟩
  · intro t ht
    simp [applyUpdate, ht]
  · intro u hu
    simp [applyUpdate, hu]

theorem find?_none_of_filter_nil {α : Type} {l : List α} {p : α → Bool}
    (h : l.filter p = []) : l.find? p = none := by
  rw [List.find?_eq_none]
  intro x hx hp
  have : x ∈ l.filter p := List.mem_filter.mpr ⟨hx, hp⟩
  rw [h] at this
  exact absurd this (List.not_mem_nil x)

theorem find?_some_of_filter_singleton {α : Type} :
    ∀ {l : List α} {p : α → Bool} {row : α}, l.filter p = [row] →
      l.find? p = some row
  | [], _, _, h => by simp at h
  | x :: xs, p, row, h => by
    cases hp : p x with
    | true =>
      rw [List.filter_cons_of_pos hp] at h
      rw [List.cons.injEq] at h
      rw [List.find?_cons_of_pos _ hp, h.1]
    | false =>
      rw [List.filter_cons_of_neg (by simp [hp])] at h
      rw [List.find?_cons_of_neg _ (by simp [hp])]
      exact find?_some_of_filter_singleton h

theorem filter_map_upd {α : Type} (p : α → Bool) (u : α → α)
    (hu : ∀ x, p x = true → p (u x) = true) :
    ∀ (l : List α),
      (l.map (fun x => if p x then u x else x)).filter p = (l.filter p).map u
  | [] => rfl
  | x :: xs => by
    cases hp : p x with
    | true =>
      rw [List.map_cons, if_pos hp, List.filter_cons_of_pos (hu x hp),
        List.filter_cons_of_pos hp, List.map_cons, filter_map_upd p u hu xs]
    | false =>
      rw [List.map_cons, if_neg (by simp [hp]), List.filter_cons_of_neg (by simp [hp]),
        List.filter_cons_of_neg (by simp [hp])]
      exact filter_map_upd p u hu xs

theorem find?_isSome_map {α : Type} (p : α → Bool) (f : α → α)
    (hf : ∀ x, p (f x) = p x) :
    ∀ (l : List α), ((l.map f).find? p).isSome = (l.find? p).isSome
  | [] => rfl
  | x :: xs => by
    rw [List.map_cons]
    cases hp : p x with
    | true =>
      rw [List.find?_cons_of_pos _ (by rw [hf x]; exact hp), List.find?_cons_of_pos _ hp]
      rfl
    | false =>
      rw [List.find?_cons_of_neg _ (by rw [hf x]; simp [hp]),
        List.find?_cons_of_neg _ (by simp [hp])]
      exact find?_isSome_map p f hf xs

theorem maybeCompleteSession_responses (db : ServerDB) (sid : String) (now : Nat) :
    (maybeCompleteSession db sid now).responses = db.responses := by
  rw [maybeCompleteSession]
  split
  · rfl
  · split
    · rfl
    · rfl

theorem maybeCompleteSession_questions (db : ServerDB) (sid : String) (now : Nat) :
    (maybeCompleteSession db sid now).questions = db.questions := by
  rw [maybeCompleteSession]
  split
  · rfl
  · split
    · rfl
    · rfl

theorem maybeCompleteSession_sessions_isSome (db : ServerDB) (sid : String)
    (now : Nat) (s0 : String) :
    (((maybeCompleteSession db sid now).sessions.find? (fun x => x.id == s0)).isSome
      = true) =
      ((db.sessions.find? (fun x => x.id == s0)).isSome = true) := by
  rw [maybeCompleteSession]
  split
  · rfl
  · split
    · dsimp only
      rw [find?_isSome_map (fun x : SessionRow => x.id == s0)
        (fun s : SessionRow =>
          if s.id == sid then { s with status := "completed", completedAt := some now }
          else s)
        (fun x : SessionRow => by by_cases hx : (x.id == sid) = true <;> simp [hx])]
    · rfl

/-- After a validated request, the handler returns 201, keeps the validation
facts intact, and applies the upsert to the pair's rows: replacing the
matching row when one exists, appending a fresh row otherwise. -/
theorem postResponse_step (db : ServerDB) (req : SaveResponseRequest) (now : Nat)
    (newId : String) (hv : validFor db req.questionId req.sessionId) :
    (postResponse db req now newId).2 = 201 ∧
    validFor (postResponse db req now newId).1 req.questionId req.sessionId ∧
    pairRows (postResponse db req now newId).1 req.questionId req.sessionId =
      (match db.responses.find? (pairMatches req.questionId req.sessionId) with
       | some _ =>
         (pairRows db req.questionId req.sessionId).map (fun row => applyUpdate row req now)
       | none => pairRows db req.questionId req.sessionId ++ [createRow req now newId]) := by
  obtain ⟨hq, hs, hsess, hquest⟩ := hv
  obtain ⟨sess, hsessEq⟩ := Option.isSome_iff_exists.mp hsess
  obtain ⟨quest, hquestEq⟩ := Option.isSome_iff_exists.mp hquest
  have hne : ¬ (req.questionId = "" ∨ req.sessionId = "") := by
    rintro (h | h)
    · exact hq h
    · exact hs h
  rw [postResponse, if_neg hne, hsessEq, hquestEq]
  refine ⟨rfl, ⟨hq, hs, ?_, ?_⟩, ?_⟩
  · rw [maybeCompleteSession_sessions_isSome]
    exact hsess
  · rw [maybeCompleteSession_questions]
    exact hquest
  · rw [pairRows, maybeCompleteSession_responses]
    cases hfind : db.responses.find? (pairMatches req.questionId req.sessionId) with
    | none =>
      rw [List.filter_append]
      have hc : pairMatches req.questionId req.sessionId (createRow req now newId) = true := by
        simp [pairMatches, createRow]
      rw [List.filter_cons_of_pos hc]
      rfl
    | some old =>
      exact filter_map_upd (pairMatches req.questionId req.sessionId)
        (fun row => applyUpdate row req now)
        (fun row hrow => by rw [pairMatches_applyUpdate]; exact hrow)
        db.responses

theorem getLast?_cons_getD {α : Type} (x : α) (d : α) :
    ∀ (rest : List α), ((x :: rest).getLast?).getD d = (rest.getLast?).getD x
  | [] => rfl
  | y :: ys => by
    rw [List.getLast?_cons_cons]
    have hsome : ((y :: ys).getLast?).isSome = true := by
      rw [List.getLast?_isSome]
      simp
    obtain ⟨z, hz⟩ := Option.isSome_iff_exists.mp hsome
    rw [hz]
    rfl

theorem postMany_keeps_single (q s : String) :
    ∀ (subs : List (SaveResponseRequest × Nat × String)) (db : ServerDB)
      (row0 : ResponseRow),
      (∀ x ∈ subs, x.1.questionId = q ∧ x.1.sessionId = s) →
      validFor db q s →
      pairRows db q s = [row0] →
      ∃ row, pairRows (postMany db subs) q s = [row] ∧
        ∀ sub0 : SaveResponseRequest × Nat × String,
          rowReflects q s sub0 row0 →
          rowReflects q s ((subs.getLast?).getD sub0) row
  | [], db, row0, _, _, h0 => ⟨row0, h0, fun _ h => h⟩
  | (req, now, newId) :: rest, db, row0, hpair, hv, h0 => by
    have hq : req.questionId = q := (hpair (req, now, newId) (List.mem_cons_self _ _)).1
    have hs : req.sessionId = s := (hpair (req, now, newId) (List.mem_cons_self _ _)).2
    have hv' : validFor db req.questionId req.sessionId := by rw [hq, hs]; exact hv
    obtain ⟨_, hv2, hrows⟩ := postResponse_step db req now newId hv'
    have hfind : db.responses.find? (pairMatches req.questionId req.sessionId) = some row0 := by
      rw [hq, hs]
      exact find?_some_of_filter_singleton h0
    rw [hfind] at hrows
    have h1 : pairRows (postResponse db req now newId).1 q s =
        [applyUpdate row0 req now] := by
      have hrows' : pairRows (postResponse db req now newId).1
          req.questionId req.sessionId =
          (pairRows db req.questionId req.sessionId).map
            (fun row => applyUpdate row req now) := hrows
      rw [hq, hs] at hrows'
      rw [hrows', h0]
      rfl
    have hrow0q : row0.questionId = q ∧ row0.sessionId = s := by
      have : row0 ∈ pairRows db q s := by rw [h0]; exact List.mem_cons_self _ _
      have hm := (List.mem_filter.mp this).2
      rw [pairMatches, Bool.and_eq_true] at hm
      exact ⟨beq_iff_eq.mp hm.1, beq_iff_eq.mp hm.2⟩
    have hvnext : validFor (postResponse db req now newId).1 q s := by
      rw [hq, hs] at hv2
      exact hv2
    have hrest : ∀ x ∈ rest, x.1.questionId = q ∧ x.1.sessionId = s :=
      fun x hx => hpair x (List.mem_cons_of_mem _ hx)
    obtain ⟨row, hfinal, hrefl⟩ := postMany_keeps_single q s rest
      (postResponse db req now newId).1 (applyUpdate row0 req now) hrest hvnext h1
    refine ⟨row, hfinal, ?_⟩
    intro sub0 _
    rw [getLast?_cons_getD]
    exact hrefl (req, now, newId)
      (rowReflects_applyUpdate q s row0 req now newId hrow0q.1 hrow0q.2)

/-- C5: the remote response endpoint is an insert-or-replace keyed on
`(questionId, sessionId)`: any non-empty sequence of accepted submissions
for the same pair (on an existing session and question) leaves exactly one
response row for that pair, completed, carrying the duration, completion
time, and every non-empty transcription/audioUrl the latest payload
supplied. -/
theorem C5_upsert_idempotent :
    ∀ (db : ServerDB) (subs : List (SaveResponseRequest × Nat × String))
      (q s : String) (lastSub : SaveResponseRequest × Nat × String),
      (∀ x ∈ subs, x.1.questionId = q ∧ x.1.sessionId = s) →
      validFor db q s →
      pairRows db q s = [] →
      subs.getLast? = some lastSub →
      ∃ row, pairRows (postMany db subs) q s = [row] ∧
        row.questionId = q ∧ row.sessionId = s ∧ row.status = "completed" ∧
        row.durationSeconds = lastSub.1.durationSeconds ∧
        row.completedAt = some lastSub.2.1 ∧
        (∀ t, strTruthy lastSub.1.transcription = some t → row.transcription = some t) ∧
        (∀ u, strTruthy lastSub.1.audioUrl = some u → row.audioUrl = some u) := by
  intro db subs q s lastSub hpair hv h0 hlast
  cases subs with
  | nil => simp at hlast
  | cons x rest =>
    obtain ⟨req, now, newId⟩ := x
    have hq : req.questionId = q := (hpair (req, now, newId) (List.mem_cons_self _ _)).1
    have hs : req.sessionId = s := (hpair (req, now, newId) (List.mem_cons_self _ _)).2
    have hv' : validFor db req.questionId req.sessionId := by rw [hq, hs]; exact hv
    obtain ⟨_, hv2, hrows⟩ := postResponse_step db req now newId hv'
    have hfind : db.responses.find? (pairMatches req.questionId req.sessionId) = none := by
      rw [hq, hs]
      exact find?_none_of_filter_nil h0
    rw [hfind] at hrows
    have h1 : pairRows (postResponse db req now newId).1 q s =
        [createRow req now newId] := by
      have hrows' : pairRows (postResponse db req now newId).1
          req.questionId req.sessionId =
          pairRows db req.questionId req.sessionId ++ [createRow req now newId] := hrows
      rw [hq, hs] at hrows'
      rw [hrows', h0]
      rfl
    have hvnext : validFor (postResponse db req now newId).1 q s := by
      rw [hq, hs] at hv2
      exact hv2
    have hrest : ∀ y ∈ rest, y.1.questionId = q ∧ y.1.sessionId = s :=
      fun y hy => hpair y (List.mem_cons_of_mem _ hy)
    obtain ⟨row, hfinal, hrefl⟩ := postMany_keeps_single q s rest
      (postResponse db req now newId).1 (createRow req now newId) hrest hvnext h1
    have hlast' : ((rest.getLast?).getD (req, now, newId)) = lastSub := by
      have := getLast?_cons_getD (α := SaveResponseRequest × Nat × String)
        (req, now, newId) (req, now, newId) rest
      rw [← this, hlast]
      rfl
    have hres := hrefl (req, now, newId)
      (rowReflects_createRow q s req now newId hq hs)
    rw [hlast'] at hres
    obtain ⟨h1', h2', h3', h4', h5', h6', h7'⟩ := hres
    exact ⟨row, hfinal, h1', h2', h3', h4', h5', h6', h7'⟩

theorem C5_witness :
    ∃ row, pairRows (postMany dbInit [(reqA, 10, "r1"), (reqB, 20, "r2")]) "q1" "s1"
        = [row] ∧
      row.questionId = "q1" ∧ row.sessionId = "s1" ∧ row.status = "completed" ∧
      row.durationSeconds = (reqB, 20, "r2").1.durationSeconds ∧
      row.completedAt = some (reqB, 20, "r2").2.1 ∧
      (∀ t, strTruthy (reqB, 20, "r2").1.transcription = some t →
        row.transcription = some t) ∧
      (∀ u, strTruthy (reqB, 20, "r2").1.audioUrl = some u →
        row.audioUrl = some u) :=
  C5_upsert_idempotent dbInit [(reqA, 10, "r1"), (reqB, 20, "r2")] "q1" "s1"
    (reqB, 20, "r2") (by decide) (by unfold validFor; decide) (by decide) (by decide)

theorem C2_witness :
    c2rec ∉ getPendingResponses st2.pendingResponses ∧
    kvGet PendingResponse.id
      (syncPendingData (fun _ => some "offline") (fun _ => none) 5 st2).state.pendingResponses
      c2rec.id = some c2rec ∧
    c2rec.id ∉ (syncPendingData (fun _ => some "offline") (fun _ => none) 5 st2).respTrace ∧
    kvGet SyncQueueItem.id
      (syncPendingData (fun _ => some "offline") (fun _ => none) 5 st2).state.syncQueue
      c2wit.id = some c2wit ∧
    c2wit.id ∉ (syncPendingData (fun _ => some "offline") (fun _ => none) 5 st2).queueTrace :=
  C2_failed_excluded_and_retained (fun _ => some "offline") (fun _ => none) 5 st2
    c2rec c2wit (by unfold KvWF; decide) (by unfold KvWF; decide)
    (by decide) (by decide) (by decide) (by decide)

end AIInterview
